import Mathlib

/-!
# Verification of opendrop's discovery coordinator and receiver resolver

Shallow embedding of `src/opendrop/cli.py` (class `AirDropCli`): the peer
probe `_send_discover` (lines 233-278) and the receiver resolver
`_get_receiver_info` (lines 348-381), together with the data they operate on.
External collaborators (the zeroconf service browser and the `AirDropClient`
protocol client) are modelled as oracle inputs, as the spec treats them as
excluded collaborators.
-/

namespace OpenDrop

/-- A persisted peer record: one element of the JSON discovery report, as
built in `_send_discover` (cli.py lines 264-271).  `name` is `None` or a
string in Python, hence `Option String` here. -/
structure PeerRecord where
  name : Option String
  address : String
  port : Nat
  id : String
  flags : Nat
  discoverable : Bool
deriving DecidableEq, Repr

/-! ## Python `int(...)` on strings

`_get_receiver_info` runs `int(self.receiver)` (cli.py line 362).  Python's
`int` on a string strips surrounding whitespace, accepts an optional sign,
and then a non-empty digit string in which single underscores may separate
digits; anything else raises `ValueError`. -/

/-- Drop leading whitespace characters from a character list. -/
def dropLeadingWs : List Char → List Char
  | [] => []
  | c :: cs => if c.isWhitespace then dropLeadingWs cs else c :: cs

/-- After the first digit of a Python integer literal: digits, with single
underscores allowed only between digits.  (A trailing or doubled underscore
is rejected; note `'_'.isDigit` is `false`, so the one-character case needs
no separate underscore test.) -/
def digitsTail : List Char → Bool
  | [] => true
  | [c] => c.isDigit
  | c :: d :: cs =>
    if c = '_' then d.isDigit && digitsTail cs
    else c.isDigit && digitsTail (d :: cs)

/-- A non-empty digit string (underscore grouping allowed), as accepted by
Python's `int` after sign and whitespace handling. -/
def pyIntDigits : List Char → Bool
  | [] => false
  | c :: cs => c.isDigit && digitsTail cs

/-- Numeric value of a digit string, ignoring grouping underscores. -/
def digitsVal (cs : List Char) : Nat :=
  cs.foldl (fun acc c => if c = '_' then acc else acc * 10 + (c.toNat - 48)) 0

/-- Python `int(s)` for a string `s`: `some n` on success, `none` when the
call raises `ValueError`. -/
def pyInt (s : String) : Option Int :=
  let cs := (dropLeadingWs (dropLeadingWs s.data.reverse).reverse)
  match cs with
  | [] => none
  | c :: ds =>
    if c = '-' then
      if pyIntDigits ds then some (-(digitsVal ds : Int)) else none
    else if c = '+' then
      if pyIntDigits ds then some ((digitsVal ds : Int)) else none
    else
      if pyIntDigits (c :: ds) then some ((digitsVal (c :: ds) : Int)) else none

/-- Python list subscript `l[i]` with an `int` index: negative indices count
from the end; `none` models `IndexError`. -/
def pyIndex {α : Type} (l : List α) (i : Int) : Option α :=
  let j : Int := if i < 0 then i + l.length else i
  if 0 ≤ j then l[j.toNat]? else none

/-- Python `str(n)` for a non-negative integer: its decimal digits, most
significant first.  `fuel` bounds the recursion depth; any `fuel > n`
suffices. -/
def pyStrAux : Nat → Nat → List Char
  | 0, _ => []
  | fuel + 1, n =>
    if n < 10 then [Nat.digitChar n]
    else pyStrAux fuel (n / 10) ++ [Nat.digitChar (n % 10)]

/-- Python `str(n)` for a non-negative integer. -/
def pyStr (n : Nat) : String :=
  String.mk (pyStrAux (n + 1) n)

/-- The ten decimal digit characters. -/
def pyDigits : List Char :=
  ['0', '1', '2', '3', '4', '5', '6', '7', '8', '9']

/-! ## The receiver resolver (`_get_receiver_info`, cli.py lines 348-381) -/

/-- Outcome of the token-resolution part of `_get_receiver_info`
(cli.py lines 360-381), after the report has been loaded:
* `found r` — some tier returned record `r`;
* `notFound` — all tiers were tried and the method logged
  "Receiver does not exist" and returned `None`;
* `typeError` — an uncaught `TypeError` escapes the method.  This happens
  when `int(self.receiver)` succeeded (rebinding `self.receiver` to an
  `int`), the subscript raised `IndexError` (caught, line 366), and then
  line 369 evaluates `len(self.receiver)` on an `int`. -/
inductive ResolveResult where
  | found (r : PeerRecord)
  | notFound
  | typeError
deriving DecidableEq, Repr

/-- The three-tier token resolution of `_get_receiver_info`
(cli.py lines 360-381), with `receiver` the `-r` token and `infos` the
loaded report.

Line-by-line correspondence:
* lines 361-363: `self.receiver = int(self.receiver)` then
  `return infos[self.receiver]`; `except ValueError: pass` falls to the
  next tier with `self.receiver` still a string;
* lines 366-367: `except IndexError: pass` — but `self.receiver` has
  already been rebound to an `int`, so the following
  `len(self.receiver)` (line 369) raises an uncaught `TypeError`;
* lines 369-372: the id tier, only when the token has exactly 12 characters;
* lines 374-376: the name tier (`info["name"] == self.receiver`; a record
  whose name is `None` never equals a string);
* lines 378-381: no tier matched. -/
def resolveToken (receiver : String) (infos : List PeerRecord) : ResolveResult :=
  match pyInt receiver with
  | some i =>
    match pyIndex infos i with
    | some r => ResolveResult.found r
    | none => ResolveResult.typeError
  | none =>
    match (if receiver.length = 12 then infos.find? (fun r => r.id = receiver) else none) with
    | some r => ResolveResult.found r
    | none =>
      match infos.find? (fun r => r.name = some receiver) with
      | some r => ResolveResult.found r
      | none => ResolveResult.notFound

/-- The on-disk discovery report as `_get_receiver_info` sees it: whether the
path exists, its modification time, and the parsed JSON records.  (JSON
serialization itself is outside the embedded core.) -/
structure ReportFile where
  fileExists : Bool
  mtime : Int
  records : List PeerRecord
deriving DecidableEq, Repr

/-- Overall outcome of `_get_receiver_info` (cli.py lines 348-381):
* `noReport` — the report path does not exist (lines 349-351), the method
  logs an error and returns `None`;
* `result stale r` — the report was loaded; `stale` records whether the
  staleness warning of lines 353-356 fired (`age > 60`), and `r` is the
  token resolution outcome. -/
inductive GetReceiverResult where
  | noReport
  | result (staleWarning : Bool) (r : ResolveResult)
deriving DecidableEq, Repr

/-- `_get_receiver_info` (cli.py lines 348-381): existence check, staleness
warning (advisory only), then token resolution on the loaded records. -/
def getReceiverInfo (receiver : String) (f : ReportFile) (now : Int) : GetReceiverResult :=
  if f.fileExists = false then GetReceiverResult.noReport
  else GetReceiverResult.result (decide (now - f.mtime > 60)) (resolveToken receiver f.records)

/-! ## The peer probe (`_send_discover`, cli.py lines 233-278) -/

/-- Modelled from the spec: `AirDropReceiverFlags.SUPPORTS_DISCOVER_MAYBE`
lives in `opendrop/config.py`, which is not part of the given source.  The
spec describes it as the bit of the capability bitmask indicating that the
peer may support a discovery probe, and says an absent `flags` property
defaults to it ("maybe supports").  The claims depend only on it being a
fixed non-zero bitmask; we use bit 6. -/
def SUPPORTS_DISCOVER_MAYBE : Nat := 64

/-- The characters of a service name before its first '.' separator. -/
def takeUntilDot : List Char → List Char
  | [] => []
  | c :: cs => if c = '.' then [] else c :: takeUntilDot cs

/-- `info.name.split(".")[0]` (cli.py line 239): the service name's leading
token, i.e. everything before the first '.' (the whole name when it has
no '.'). -/
def leadingToken (s : String) : String :=
  String.mk (takeUntilDot s.data)

/-- A zeroconf service record as `_send_discover` consumes it: `info.name`,
`info.server`, `info.parsed_addresses()`, `info.port`, and the byte-string
property map (here an association list), whose `flags` entry, when present,
is the parsed capability bitmask. -/
structure ServiceInfo where
  name : String
  server : String
  addresses : List String
  port : Nat
  properties : List (String × Nat)
deriving DecidableEq, Repr

/-- What the external protocol client's `send_discover` call would return
for this peer: either it raises `TimeoutError`, or it returns a receiver
name (`None` or a string, possibly empty). -/
inductive ProbeOutcome where
  | timeout
  | ok (name : Option String)
deriving DecidableEq, Repr

/-- Log lines `_send_discover` can emit (warning for a missing address,
the initial service-found debug line, the info line for a discoverable
peer, the debug line for a non-discoverable one). -/
inductive LogEvent where
  | warnMissingAddress
  | debugServiceFound (id : String)
  | infoFound (index : Nat) (id : String)
  | debugNotDiscoverable (id : String)
deriving DecidableEq, Repr

/-- Result of one sequential run of `_send_discover`: the catalog
(`self.discover`) after the probe, the log lines emitted, and whether the
network discovery call was issued. -/
structure DiscoverOutcome where
  catalog : List PeerRecord
  logs : List LogEvent
  networkCalled : Bool
deriving DecidableEq, Repr

/-- `_send_discover` (cli.py lines 233-278) as a function of the service
record, an oracle for the external `client.send_discover` call, and the
catalog `self.discover` at probe time.

Line-by-line correspondence:
* lines 234-237: `info.parsed_addresses()[0]`; an empty address list raises
  `IndexError`, which is caught: a warning is logged and the probe returns
  without touching the catalog;
* line 239: `identifier = info.name.split(".")[0]`;
* lines 246-250: `flags = int(info.properties[b"flags"])`, defaulting to
  `SUPPORTS_DISCOVER_MAYBE` on `KeyError`;
* lines 252-260: the network call is issued only when
  `flags & SUPPORTS_DISCOVER_MAYBE` is non-zero; `TimeoutError` is caught
  and leaves `receiver_name = None`;
* line 261: `discoverable = receiver_name is not None`;
* lines 263-278: `index = len(self.discover)`, the record is built and
  appended, and one log line is emitted. -/
def sendDiscover (info : ServiceInfo) (probe : ProbeOutcome) (discover : List PeerRecord) :
    DiscoverOutcome :=
  match info.addresses with
  | [] => ⟨discover, [LogEvent.warnMissingAddress], false⟩
  | address :: _ =>
    let identifier := leadingToken info.name
    let port := info.port
    let flags :=
      match info.properties.lookup "flags" with
      | some v => v
      | none => SUPPORTS_DISCOVER_MAYBE
    let probeRes : Option String × Bool :=
      if flags &&& SUPPORTS_DISCOVER_MAYBE ≠ 0 then
        match probe with
        | ProbeOutcome.timeout => (none, true)
        | ProbeOutcome.ok n => (n, true)
      else (none, false)
    let receiver_name := probeRes.1
    let discoverable := receiver_name.isSome
    let index := discover.length
    let node_info : PeerRecord :=
      ⟨receiver_name, address, port, identifier, flags, discoverable⟩
    ⟨discover ++ [node_info],
     [LogEvent.debugServiceFound identifier] ++
       (if discoverable then [LogEvent.infoFound index identifier]
        else [LogEvent.debugNotDiscoverable identifier]),
     probeRes.2⟩

/-! ## Interleaving model of concurrent probes (cli.py lines 263-278)

`find` launches one `_send_discover` thread per announced service
(`_found_receiver`, lines 229-231).  The shared state is `self.discover`
and `self.lock`.  Each probe, after its (unshared) network phase, executes
this sequence of atomic actions:

1. `index = len(self.discover)` — line 263, **outside** the lock;
2. `self.lock.acquire()` — line 272;
3. `self.discover.append(node_info)` — line 273;
4. the log line, which reports `index` — lines 274-277;
5. `self.lock.release()` — line 278.

Record contents do not depend on the interleaving, so the catalog is
modelled by its length and the log by the list of reported indices. -/

/-- Program counter of one probe thread within lines 263-278: the next
atomic action it will perform. -/
inductive PC where
  | readLen
  | acq
  | app
  | emitLog
  | rel
  | done
deriving DecidableEq, Repr

/-- One probe thread: its program counter and its local `index` variable
(meaningful once `readLen` has executed). -/
structure ProbeThread where
  pc : PC
  idx : Nat
deriving DecidableEq, Repr

/-- The shared coordinator state: length of `self.discover`, whether
`self.lock` is held, the indices reported by log lines so far, and the
probe threads. -/
structure Coord where
  catalogLen : Nat
  lockHeld : Bool
  logged : List Nat
  threads : List ProbeThread
deriving DecidableEq, Repr

/-- Execute the next atomic action of thread `t`, if any is enabled; a
blocked `acquire` (lock already held), a finished thread, or an out-of-range
`t` leaves the state unchanged. -/
def stepThread (s : Coord) (t : Nat) : Coord :=
  match s.threads[t]? with
  | none => s
  | some th =>
    match th.pc with
    | PC.readLen =>
      { s with threads := s.threads.set t ⟨PC.acq, s.catalogLen⟩ }
    | PC.acq =>
      if s.lockHeld then s
      else { s with lockHeld := true, threads := s.threads.set t ⟨PC.app, th.idx⟩ }
    | PC.app =>
      { s with catalogLen := s.catalogLen + 1, threads := s.threads.set t ⟨PC.emitLog, th.idx⟩ }
    | PC.emitLog =>
      { s with logged := s.logged ++ [th.idx], threads := s.threads.set t ⟨PC.rel, th.idx⟩ }
    | PC.rel =>
      { s with lockHeld := false, threads := s.threads.set t ⟨PC.done, th.idx⟩ }
    | PC.done => s

/-- Run a schedule: a list of thread ids, each performing its next enabled
atomic action in turn. -/
def runSched (s : Coord) : List Nat → Coord
  | [] => s
  | t :: ts => runSched (stepThread s t) ts

/-- Initial coordinator state for `n` concurrent probes that have all
finished their network phase: empty catalog, lock free, no log lines. -/
def initCoord (n : Nat) : Coord :=
  ⟨0, false, [], List.replicate n ⟨PC.readLen, 0⟩⟩

/-- Threads that have already executed their append (line 273). -/
def pastApp (th : ProbeThread) : Bool :=
  th.pc = PC.emitLog || th.pc = PC.rel || th.pc = PC.done

/-- Threads that have already emitted their log line (lines 274-277). -/
def pastLog (th : ProbeThread) : Bool :=
  th.pc = PC.rel || th.pc = PC.done

/-- The coordinator invariant: thread count is stable, the catalog length
counts the appends already performed, and the log length counts the log
lines already emitted. -/
def CoordInv (n : Nat) (s : Coord) : Prop :=
  s.threads.length = n ∧
  s.catalogLen = s.threads.countP pastApp ∧
  s.logged.length = s.threads.countP pastLog

/-! ## Concrete records used in witnesses and counterexamples -/

/-- The single record of the spec's worked example report. -/
def bobRecord : PeerRecord :=
  ⟨some "Bob", "fe80::1", 8770, "aa11bb22cc33", 1, true⟩

/-- The spec's worked example report. -/
def bobReport : List PeerRecord :=
  [bobRecord]

/-- A service record with one address and no `flags` property. -/
def infoNoFlags : ServiceInfo :=
  ⟨"cafebabe0001.local", "host.local", ["fe80::1"], 8770, []⟩

/-- A service record with one address whose `flags` property has the
`SUPPORTS_DISCOVER_MAYBE` bit clear. -/
def infoFlagsOne : ServiceInfo :=
  ⟨"cafebabe0001.local", "host.local", ["fe80::1"], 8770, [("flags", 1)]⟩

/-- A service record announcing no addresses. -/
def infoNoAddress : ServiceInfo :=
  ⟨"cafebabe0001.local", "host.local", [], 8770, []⟩

/-! ## Helper lemmas: decimal strings round-trip through `pyInt` -/

/-- Decimal digit characters are digits and are not whitespace, signs, or
grouping underscores. -/
theorem pyDigits_facts :
    ∀ c ∈ pyDigits, c.isDigit = true ∧ c.isWhitespace = false ∧
      c ≠ '-' ∧ c ≠ '+' ∧ c ≠ '_' := by decide

/-- `Nat.digitChar` of a value below ten is a decimal digit character. -/
theorem digitChar_mem_pyDigits (d : Nat) (h : d < 10) : Nat.digitChar d ∈ pyDigits := by
  interval_cases d <;> decide

/-- `Nat.digitChar` of a value below ten has code point `48 + d`. -/
theorem digitChar_toNat (d : Nat) (h : d < 10) : (Nat.digitChar d).toNat = 48 + d := by
  interval_cases d <;> decide

/-- Appending a non-underscore character multiplies the accumulated value
by ten and adds the character's digit value. -/
theorem digitsVal_append (l : List Char) (c : Char) (h : ¬ c = '_') :
    digitsVal (l ++ [c]) = digitsVal l * 10 + (c.toNat - 48) := by
  simp [digitsVal, List.foldl_append, h]

/-- A list of decimal digit characters is accepted by `digitsTail`. -/
theorem digitsTail_of_digits : ∀ l : List Char, (∀ c ∈ l, c ∈ pyDigits) → digitsTail l = true := by
  intro l
  induction l with
  | nil => intro _; rfl
  | cons c cs ih =>
    intro h
    have hc := pyDigits_facts c (h c (by simp))
    cases cs with
    | nil => simp [digitsTail, hc.1]
    | cons d cs2 =>
      simp only [digitsTail]
      rw [if_neg hc.2.2.2.2]
      simp only [hc.1, Bool.true_and]
      exact ih (fun x hx => h x (by simp [hx]))

/-- A non-empty list of decimal digit characters is accepted by
`pyIntDigits`. -/
theorem pyIntDigits_of_digits (l : List Char) (hne : l ≠ []) (h : ∀ c ∈ l, c ∈ pyDigits) :
    pyIntDigits l = true := by
  cases l with
  | nil => exact absurd rfl hne
  | cons c cs =>
    have hc := pyDigits_facts c (h c (by simp))
    simp [pyIntDigits, hc.1, digitsTail_of_digits cs (fun x hx => h x (by simp [hx]))]

/-- Dropping leading whitespace from a digit string is the identity. -/
theorem dropLeadingWs_of_digits (l : List Char) (h : ∀ c ∈ l, c ∈ pyDigits) :
    dropLeadingWs l = l := by
  cases l with
  | nil => rfl
  | cons c cs =>
    have hc := pyDigits_facts c (h c (by simp))
    simp [dropLeadingWs, hc.2.1]

/-- With enough fuel, `pyStrAux` produces a non-empty digit string whose
value is the rendered number. -/
theorem pyStrAux_spec : ∀ (fuel n : Nat), n < fuel →
    pyStrAux fuel n ≠ [] ∧ (∀ c ∈ pyStrAux fuel n, c ∈ pyDigits) ∧
      digitsVal (pyStrAux fuel n) = n := by
  intro fuel
  induction fuel with
  | zero => intro n h; omega
  | succ k ih =>
    intro n h
    by_cases h10 : n < 10
    · simp only [pyStrAux, if_pos h10]
      refine ⟨by simp, ?_, ?_⟩
      · intro c hc
        simp only [List.mem_singleton] at hc
        subst hc
        exact digitChar_mem_pyDigits n h10
      · have ht := digitChar_toNat n h10
        have hne := (pyDigits_facts _ (digitChar_mem_pyDigits n h10)).2.2.2.2
        simp [digitsVal, hne, ht]
    · have hk : n / 10 < k := by omega
      have hspec := ih (n / 10) hk
      have hmod : n % 10 < 10 := Nat.mod_lt _ (by omega)
      have hmem := digitChar_mem_pyDigits _ hmod
      have hneU := (pyDigits_facts _ hmem).2.2.2.2
      simp only [pyStrAux, if_neg h10]
      refine ⟨by simp, ?_, ?_⟩
      · intro c hc
        rcases List.mem_append.mp hc with h1 | h1
        · exact hspec.2.1 c h1
        · simp only [List.mem_singleton] at h1
          subst h1
          exact hmem
      · rw [digitsVal_append _ _ hneU, hspec.2.2, digitChar_toNat _ hmod]
        omega

/-- Python's `int` parses back Python's `str` of a non-negative integer. -/
theorem pyInt_pyStr (n : Nat) : pyInt (pyStr n) = some (n : Int) := by
  obtain ⟨hne, hmem, hval⟩ := pyStrAux_spec (n + 1) n (by omega)
  obtain ⟨c, ds, hcds⟩ := List.exists_cons_of_ne_nil hne
  rw [hcds] at hmem hval
  have hc := pyDigits_facts c (hmem c (by simp))
  have hmemrev : ∀ x ∈ (c :: ds).reverse, x ∈ pyDigits := by
    intro x hx
    exact hmem x (List.mem_reverse.mp hx)
  have hdig : pyIntDigits (c :: ds) = true := pyIntDigits_of_digits _ (by simp) hmem
  have hdata : (pyStr n).data = c :: ds := by rw [← hcds]; rfl
  simp only [pyInt, hdata, dropLeadingWs_of_digits _ hmemrev, List.reverse_reverse,
    dropLeadingWs_of_digits _ hmem]
  rw [if_neg hc.2.2.1, if_neg hc.2.2.2.1]
  simp [hdig, hval]

/-- A filter with a singleton result pins down `find?`. -/
theorem find?_of_filter_singleton {α : Type} (p : α → Bool) :
    ∀ (l : List α) (r : α), l.filter p = [r] → l.find? p = some r := by
  intro l
  induction l with
  | nil => intro r h; simp at h
  | cons a l ih =>
    intro r h
    cases hp : p a with
    | true =>
      rw [List.filter_cons_of_pos hp] at h
      injection h with h1 h2
      subst h1
      exact List.find?_cons_of_pos _ hp
    | false =>
      rw [List.filter_cons_of_neg (by simp [hp])] at h
      rw [List.find?_cons_of_neg _ (by simp [hp])]
      exact ih r h

/-- A non-negative Python index within range selects the list element at
that position. -/
theorem pyIndex_natCast {α : Type} (l : List α) (i : Nat) (h : i < l.length) :
    pyIndex l (i : Int) = some (l.get ⟨i, h⟩) := by
  have h0 : ¬ ((i : Int) < 0) := by omega
  have h1 : (0 : Int) ≤ (i : Int) := by omega
  simp only [pyIndex, if_neg h0, if_pos h1, Int.toNat_natCast]
  exact List.getElem?_eq_getElem h

/-- The Python index `-1` selects the last element of a non-empty list. -/
theorem pyIndex_neg_one {α : Type} (l : List α) (h : l ≠ []) :
    pyIndex l (-1) = some (l.getLast h) := by
  have hlen : 0 < l.length := List.length_pos.mpr h
  have hneg : (-1 : Int) < 0 := by omega
  have hj : (0 : Int) ≤ -1 + l.length := by omega
  have htn : ((-1 : Int) + l.length).toNat = l.length - 1 := by omega
  have hlt : l.length - 1 < l.length := by omega
  simp only [pyIndex, if_pos hneg, if_pos hj, htn]
  rw [List.getElem?_eq_getElem hlt]
  rw [List.getLast_eq_getElem]

/-! ## Receiver resolver claims -/

/-- C1: for every persisted report `R` and every `i` with
`0 ≤ i < len(R)`, resolving the token `str(i)` succeeds and returns the
record `R[i]` — the index tier returns the element at that position. -/
theorem resolveToken_index (R : List PeerRecord) (i : Nat) (h : i < R.length) :
    resolveToken (pyStr i) R = ResolveResult.found (R.get ⟨i, h⟩) := by
  simp only [resolveToken, pyInt_pyStr, pyIndex_natCast R i h]

/-- C1 witness: index `0` of the spec's example report resolves to its only
record. -/
theorem resolveToken_index_witness :
    resolveToken (pyStr 0) bobReport = ResolveResult.found (bobReport.get ⟨0, by decide⟩) :=
  resolveToken_index bobReport 0 (by decide)

/-- C2 (code bug): resolving the token `"5"` against the one-record example
report does not fall through to the identifier and name tiers —
`self.receiver` has been rebound to the `int` `5`, so after the caught
`IndexError` the check `len(self.receiver)` raises an uncaught
`TypeError`. -/
theorem resolveToken_out_of_range_typeError :
    resolveToken "5" bobReport = ResolveResult.typeError := by decide

/-- C3: a 12-character token that does not parse as an integer and matches
exactly one record's `id` resolves to that record. -/
theorem resolveToken_id_tier (t : String) (R : List PeerRecord) (r : PeerRecord)
    (hint : pyInt t = none) (hlen : t.length = 12)
    (hfilter : R.filter (fun x => x.id = t) = [r]) :
    resolveToken t R = ResolveResult.found r := by
  simp only [resolveToken, hint, hlen, if_pos]
  rw [find?_of_filter_singleton _ R r hfilter]

/-- C3 witness: the example device id resolves to the example record. -/
theorem resolveToken_id_tier_witness :
    resolveToken "aa11bb22cc33" bobReport = ResolveResult.found bobRecord :=
  resolveToken_id_tier "aa11bb22cc33" bobReport bobRecord (by decide) (by decide) (by decide)

/-- C9: on the spec's one-record example report, the index token `"0"`, the
id token `"aa11bb22cc33"`, and the name token `"Bob"` all resolve to the
identical record. -/
theorem resolveToken_bob_three_tiers :
    resolveToken "0" bobReport = ResolveResult.found bobRecord ∧
    resolveToken "aa11bb22cc33" bobReport = ResolveResult.found bobRecord ∧
    resolveToken "Bob" bobReport = ResolveResult.found bobRecord := by
  refine ⟨by decide, by decide, by decide⟩

/-- C10: on every non-empty report, the token `"-1"` resolves to the last
record — the index tier accepts negative integers as end-relative
positions. -/
theorem resolveToken_neg_one (R : List PeerRecord) (h : R ≠ []) :
    resolveToken "-1" R = ResolveResult.found (R.getLast h) := by
  have hp : pyInt "-1" = some (-1) := by decide
  simp only [resolveToken, hp, pyIndex_neg_one R h]

/-- C10 witness: `"-1"` resolves to the single record of the example
report. -/
theorem resolveToken_neg_one_witness :
    resolveToken "-1" bobReport = ResolveResult.found (bobReport.getLast (by decide)) :=
  resolveToken_neg_one bobReport (by decide)

/-- C8: a report whose modification time is more than 60 seconds in the
past triggers the staleness warning, but the load still succeeds and
resolution is the same function of the records as for a fresh report;
staleness never blocks a load. -/
theorem getReceiverInfo_stale (f : ReportFile) (receiver : String) (now fresh : Int)
    (hex : f.fileExists = true) (hstale : now - f.mtime > 60) (hfresh : fresh - f.mtime ≤ 60) :
    getReceiverInfo receiver f now =
      GetReceiverResult.result true (resolveToken receiver f.records) ∧
    getReceiverInfo receiver f fresh =
      GetReceiverResult.result false (resolveToken receiver f.records) := by
  constructor <;> simp [getReceiverInfo, hex, hstale, hfresh]

/-- C8 witness: the example report, written at time 0 and read at time 61,
warns but resolves `"Bob"` exactly as at time 0. -/
theorem getReceiverInfo_stale_witness :
    getReceiverInfo "Bob" ⟨true, 0, bobReport⟩ 61 =
      GetReceiverResult.result true (resolveToken "Bob" bobReport) ∧
    getReceiverInfo "Bob" ⟨true, 0, bobReport⟩ 0 =
      GetReceiverResult.result false (resolveToken "Bob" bobReport) :=
  getReceiverInfo_stale ⟨true, 0, bobReport⟩ "Bob" 61 0 rfl (by decide) (by decide)

/-! ## Peer probe claims -/

/-- C7: a service record announcing zero addresses makes the probe abort
with the logged warning: no record is produced, the catalog is unchanged,
no network call is made, and the probe returns normally (the coordinator
is not aborted). -/
theorem sendDiscover_missing_address (info : ServiceInfo) (probe : ProbeOutcome)
    (discover : List PeerRecord) (h : info.addresses = []) :
    sendDiscover info probe discover =
      ⟨discover, [LogEvent.warnMissingAddress], false⟩ := by
  simp only [sendDiscover, h]

/-- C7 witness: the address-less example service record leaves the example
catalog untouched. -/
theorem sendDiscover_missing_address_witness :
    sendDiscover infoNoAddress ProbeOutcome.timeout bobReport =
      ⟨bobReport, [LogEvent.warnMissingAddress], false⟩ :=
  sendDiscover_missing_address infoNoAddress ProbeOutcome.timeout bobReport (by decide)

/-- C4 counterexample: with no `flags` property and a probe that returns
the empty receiver name, the produced record has `discoverable = true`
even though the returned name is empty — the code tests
`receiver_name is not None`, not non-emptiness. -/
theorem sendDiscover_empty_name_counterexample :
    (sendDiscover infoNoFlags (ProbeOutcome.ok (some "")) []).catalog =
      [⟨some "", "fe80::1", 8770, "cafebabe0001", 64, true⟩] := by decide

/-- C4 (amended): the produced record's `discoverable` field is true if and
only if the probe returned a receiver name that is not `None` (it may be
the empty string); on a timeout the record is still produced, with
`discoverable = false`, and the probe returns normally. -/
theorem sendDiscover_discoverable (info : ServiceInfo) (probe : ProbeOutcome)
    (discover : List PeerRecord) (h : info.addresses ≠ []) :
    ∃ node, (sendDiscover info probe discover).catalog = discover ++ [node] ∧
      (node.discoverable = true ↔ node.name ≠ none) ∧
      (probe = ProbeOutcome.timeout → node.discoverable = false) := by
  obtain ⟨a, rest, hA⟩ := List.exists_cons_of_ne_nil h
  simp only [sendDiscover, hA]
  refine ⟨_, rfl, ?_, ?_⟩
  · simp [Option.isSome_iff_ne_none]
  · intro hp
    subst hp
    split <;> simp

/-- C4 witness: a timed-out probe of the flag-less example service record
still appends one record. -/
theorem sendDiscover_discoverable_witness :
    (sendDiscover infoNoFlags ProbeOutcome.timeout []).catalog.length = 1 := by
  obtain ⟨node, hcat, -, -⟩ :=
    sendDiscover_discoverable infoNoFlags ProbeOutcome.timeout [] (by decide)
  rw [hcat]
  rfl

/-- C5: with no `flags` property the peer is treated as "maybe supports
discover" and the network call is issued; with a `flags` value whose
`SUPPORTS_DISCOVER_MAYBE` bit is clear, the network call is skipped
entirely and the produced record carries no receiver name. -/
theorem sendDiscover_flags_policy (info : ServiceInfo) (probe : ProbeOutcome)
    (discover : List PeerRecord) (h : info.addresses ≠ []) :
    (info.properties.lookup "flags" = none →
      (sendDiscover info probe discover).networkCalled = true) ∧
    (∀ v, info.properties.lookup "flags" = some v → v &&& SUPPORTS_DISCOVER_MAYBE = 0 →
      (sendDiscover info probe discover).networkCalled = false ∧
      (sendDiscover info probe discover).catalog = discover ++
        [⟨none, info.addresses.headD "", info.port,
          leadingToken info.name, v, false⟩]) := by
  obtain ⟨a, rest, hA⟩ := List.exists_cons_of_ne_nil h
  constructor
  · intro hnone
    simp only [sendDiscover, hA, hnone]
    cases probe <;> simp [SUPPORTS_DISCOVER_MAYBE]
  · intro v hv hbit
    simp only [sendDiscover, hA, hv, hbit]
    simp [hA]

/-- C5 witness: the example record whose `flags` value is 1 (bit 0x40
clear) is catalogued without any network call. -/
theorem sendDiscover_flags_policy_witness :
    (sendDiscover infoFlagsOne ProbeOutcome.timeout []).networkCalled = false :=
  ((sendDiscover_flags_policy infoFlagsOne ProbeOutcome.timeout [] (by decide)).2
    1 (by decide) (by decide)).1

/-! ## Concurrency claims -/

/-- Setting a list element trades its `countP` contribution for the new
element's. -/
theorem countP_set_eq {α : Type} (p : α → Bool) :
    ∀ (l : List α) (i : Nat) (a b : α), l[i]? = some a →
      (l.set i b).countP p + (if p a then 1 else 0) =
        l.countP p + (if p b then 1 else 0) := by
  intro l
  induction l with
  | nil => intro i a b h; simp at h
  | cons x l ih =>
    intro i a b h
    cases i with
    | zero =>
      simp only [List.getElem?_cons_zero, Option.some.injEq] at h
      rcases h with rfl
      simp only [List.set_cons_zero, List.countP_cons]
      omega
    | succ i =>
      simp only [List.getElem?_cons_succ] at h
      have hih := ih i a b h
      simp only [List.set_cons_succ, List.countP_cons]
      omega

/-- Setting an element whose `p`-value stays `false` keeps the count. -/
theorem countP_set_ff {α : Type} (p : α → Bool) (l : List α) (i : Nat) (a b : α)
    (h : l[i]? = some a) (ha : p a = false) (hb : p b = false) :
    (l.set i b).countP p = l.countP p := by
  have hx := countP_set_eq p l i a b h
  simp [ha, hb] at hx
  exact hx

/-- Setting an element whose `p`-value turns `true` raises the count by
one. -/
theorem countP_set_ft {α : Type} (p : α → Bool) (l : List α) (i : Nat) (a b : α)
    (h : l[i]? = some a) (ha : p a = false) (hb : p b = true) :
    (l.set i b).countP p = l.countP p + 1 := by
  have hx := countP_set_eq p l i a b h
  simp [ha, hb] at hx
  exact hx

/-- Setting an element whose `p`-value stays `true` keeps the count. -/
theorem countP_set_tt {α : Type} (p : α → Bool) (l : List α) (i : Nat) (a b : α)
    (h : l[i]? = some a) (ha : p a = true) (hb : p b = true) :
    (l.set i b).countP p = l.countP p := by
  have hx := countP_set_eq p l i a b h
  simp [ha, hb] at hx
  omega

/-- The initial coordinator state satisfies the invariant. -/
theorem initCoord_inv (n : Nat) : CoordInv n (initCoord n) := by
  have happ : (List.replicate n (⟨PC.readLen, 0⟩ : ProbeThread)).countP pastApp = 0 := by
    rw [List.countP_eq_zero]
    intro th hth
    rw [List.eq_of_mem_replicate hth]
    decide
  have hlog : (List.replicate n (⟨PC.readLen, 0⟩ : ProbeThread)).countP pastLog = 0 := by
    rw [List.countP_eq_zero]
    intro th hth
    rw [List.eq_of_mem_replicate hth]
    decide
  exact ⟨by simp [initCoord], by simp [initCoord, happ], by simp [initCoord, hlog]⟩

/-- Each atomic step preserves the coordinator invariant. -/
theorem stepThread_inv {n : Nat} {s : Coord} (t : Nat) (hinv : CoordInv n s) :
    CoordInv n (stepThread s t) := by
  obtain ⟨hlen, hcat, hlog⟩ := hinv
  unfold stepThread
  cases hth : s.threads[t]? with
  | none => exact ⟨hlen, hcat, hlog⟩
  | some th =>
    obtain ⟨pc, idx⟩ := th
    cases pc with
    | readLen =>
      have ha := countP_set_ff pastApp s.threads t ⟨PC.readLen, idx⟩ ⟨PC.acq, s.catalogLen⟩
        hth rfl rfl
      have hb := countP_set_ff pastLog s.threads t ⟨PC.readLen, idx⟩ ⟨PC.acq, s.catalogLen⟩
        hth rfl rfl
      exact ⟨by simpa using hlen, by rw [ha]; exact hcat, by rw [hb]; exact hlog⟩
    | acq =>
      dsimp only
      by_cases hl : s.lockHeld = true
      · rw [if_pos hl]
        exact ⟨hlen, hcat, hlog⟩
      · rw [if_neg hl]
        have ha := countP_set_ff pastApp s.threads t ⟨PC.acq, idx⟩ ⟨PC.app, idx⟩ hth rfl rfl
        have hb := countP_set_ff pastLog s.threads t ⟨PC.acq, idx⟩ ⟨PC.app, idx⟩ hth rfl rfl
        exact ⟨by simpa using hlen, by rw [ha]; exact hcat, by rw [hb]; exact hlog⟩
    | app =>
      have ha := countP_set_ft pastApp s.threads t ⟨PC.app, idx⟩ ⟨PC.emitLog, idx⟩ hth rfl rfl
      have hb := countP_set_ff pastLog s.threads t ⟨PC.app, idx⟩ ⟨PC.emitLog, idx⟩ hth rfl rfl
      exact ⟨by simpa using hlen, by rw [ha, hcat], by rw [hb]; exact hlog⟩
    | emitLog =>
      have ha := countP_set_tt pastApp s.threads t ⟨PC.emitLog, idx⟩ ⟨PC.rel, idx⟩ hth rfl rfl
      have hb := countP_set_ft pastLog s.threads t ⟨PC.emitLog, idx⟩ ⟨PC.rel, idx⟩ hth rfl rfl
      refine ⟨by simpa using hlen, by rw [ha]; exact hcat, ?_⟩
      simp only [List.length_append, List.length_singleton, hb]
      omega
    | rel =>
      have ha := countP_set_tt pastApp s.threads t ⟨PC.rel, idx⟩ ⟨PC.done, idx⟩ hth rfl rfl
      have hb := countP_set_tt pastLog s.threads t ⟨PC.rel, idx⟩ ⟨PC.done, idx⟩ hth rfl rfl
      exact ⟨by simpa using hlen, by rw [ha]; exact hcat, by rw [hb]; exact hlog⟩
    | done => exact ⟨hlen, hcat, hlog⟩

/-- Running any schedule preserves the coordinator invariant. -/
theorem runSched_inv {n : Nat} :
    ∀ (sched : List Nat) (s : Coord), CoordInv n s → CoordInv n (runSched s sched) := by
  intro sched
  induction sched with
  | nil => intro s hs; exact hs
  | cons t ts ih => intro s hs; exact ih _ (stepThread_inv t hs)

/-- C6 counterexample: two concurrent probes that both read
`len(self.discover)` before either acquires the lock run to completion
with a catalog of two records but log lines both reporting index `0` —
the reported indices are not the set `{0, 1}`. -/
theorem runSched_duplicate_indices :
    runSched (initCoord 2) [0, 1, 0, 0, 0, 0, 1, 1, 1, 1] =
      ⟨2, false, [0, 0], [⟨PC.done, 0⟩, ⟨PC.done, 0⟩]⟩ := by decide

/-- C6 (amended): only the append and the log emission are inside the
mutex-protected critical section — `index = len(self.discover)` is read
before the lock is acquired.  Under any interleaving in which all `N`
probes run to completion, the catalog still holds exactly `N` records and
exactly `N` log lines are emitted, but the reported indices can contain
duplicates and gaps. -/
theorem runSched_all_done_counts (n : Nat) (sched : List Nat)
    (h : ∀ th ∈ (runSched (initCoord n) sched).threads, th.pc = PC.done) :
    (runSched (initCoord n) sched).catalogLen = n ∧
    (runSched (initCoord n) sched).logged.length = n := by
  obtain ⟨hlen, hcat, hlog⟩ := runSched_inv sched (initCoord n) (initCoord_inv n)
  have hApp : (runSched (initCoord n) sched).threads.countP pastApp =
      (runSched (initCoord n) sched).threads.length :=
    List.countP_eq_length.mpr (fun th hth => by simp [pastApp, h th hth])
  have hLog : (runSched (initCoord n) sched).threads.countP pastLog =
      (runSched (initCoord n) sched).threads.length :=
    List.countP_eq_length.mpr (fun th hth => by simp [pastLog, h th hth])
  constructor
  · rw [hcat, hApp, hlen]
  · rw [hlog, hLog, hlen]

/-- C6 witness: a serial schedule of two probes completes with two catalog
records and two log lines. -/
theorem runSched_all_done_counts_witness :
    (runSched (initCoord 2) [0, 0, 0, 0, 0, 1, 1, 1, 1, 1]).catalogLen = 2 ∧
    (runSched (initCoord 2) [0, 0, 0, 0, 0, 1, 1, 1, 1, 1]).logged.length = 2 :=
  runSched_all_done_counts 2 [0, 0, 0, 0, 0, 1, 1, 1, 1, 1] (by decide)

end OpenDrop
